import Mathlib

/-!
Verification development for the text2sql online pipeline
(`src/main/online/query_parser.py`, `src/main/online/sql_validator.py`,
`src/main/online/rag_retriever.py`, `src/main/text2sql.py`).

External collaborators (the sqlglot SQL parser, the vector store, the
language model and the database engine) are modelled as explicit function
parameters; everything written in the repository itself is translated
directly from the Python source.  Python regular-expression scanning is
reproduced by explicit left-to-right scanners; recursion is made structural
with a fuel argument that always dominates the number of scanning steps
(each step consumes at least one character), so the fuel never runs out on
the inputs supplied by the wrappers.  Python's word class `\w` is modelled
on its ASCII fragment (letters, digits, underscore); Python's Unicode word
class is wider, which none of the properties proved here depend on.
-/

namespace Text2SQL

/-- The single-quote character, used by `_apply_basic_fixes` when quoting
string literals. -/
def sq : String := String.mk [Char.ofNat 39]

/-- Python `str(...)` of an `Optional[str]` as interpolated by f-strings:
`None` prints as the text "None". -/
def pyStr (o : Option String) : String := o.getD "None"

/-- ASCII fragment of Python's regex word class `\w`. -/
def wordChar (c : Char) : Bool := c.isAlphanum || c = '_'

/-- Whitespace characters recognised by the regex class `\s` (ASCII part). -/
def wsChar (c : Char) : Bool :=
  c = ' ' || c = '\t' || c = '\n' || c = '\r' || c = Char.ofNat 11 || c = Char.ofNat 12

/-- Is `needle` a contiguous sublist of `hay`? -/
def listInfixOf (needle : List Char) : List Char → Bool
  | [] => needle.isEmpty
  | hay@(_ :: rest) => needle.isPrefixOf hay || listInfixOf needle rest

/-- Python's substring test `needle in hay`. -/
def containsSub (hay needle : String) : Bool :=
  listInfixOf needle.toList hay.toList

/-- Python `str.lower()` (character-wise lowering; identical to the source
behaviour on the ASCII and CJK text handled here). -/
def pyLower (s : String) : String :=
  String.mk (s.toList.map Char.toLower)

/-- String prefix test over the character lists. -/
def strIsPrefixOf (p s : String) : Bool :=
  p.toList.isPrefixOf s.toList

/-- Python `c in s` for a single character. -/
def strContainsChar (s : String) (c : Char) : Bool :=
  s.toList.contains c

/-- Python's falsiness test for a string (`if s:` fails exactly on ""). -/
def strIsEmpty (s : String) : Bool :=
  s.toList.isEmpty

/-- Python `str.split(sep)` for a single-character separator. -/
def splitCharAux (sep : Char) : List Char → List Char → List String
  | acc, [] => [String.mk acc.reverse]
  | acc, c :: rest =>
    if c == sep then String.mk acc.reverse :: splitCharAux sep [] rest
    else splitCharAux sep (c :: acc) rest

/-- Python `str.split(sep)` for a single-character separator. -/
def pySplitChar (sep : Char) (s : String) : List String :=
  splitCharAux sep [] s.toList

/-- One pass of Python `str.replace(old, new)` over the character list
(non-overlapping, left to right; `old` is never empty at the call sites). -/
def replaceAllAux (old new : List Char) : Nat → List Char → List Char
  | 0, l => l
  | _ + 1, [] => []
  | fuel + 1, l@(c :: rest) =>
    if old.isPrefixOf l then new ++ replaceAllAux old new fuel (l.drop old.length)
    else c :: replaceAllAux old new fuel rest

/-- Python `str.replace(old, new)`. -/
def replaceAll (s old new : String) : String :=
  String.mk (replaceAllAux old.toList new.toList s.length s.toList)

/-- Python `str.isdigit()` (ASCII digits). -/
def isDigits (s : String) : Bool :=
  !s.toList.isEmpty && s.toList.all Char.isDigit

/-- Fuel-driven scanner for `re.findall(r'\w+', s)`: maximal runs of word
characters, left to right. -/
def pyWordsAux : Nat → List Char → List String
  | 0, _ => []
  | _ + 1, [] => []
  | fuel + 1, c :: rest =>
    if wordChar c then
      String.mk (c :: rest.takeWhile wordChar) :: pyWordsAux fuel (rest.dropWhile wordChar)
    else
      pyWordsAux fuel rest

/-- Model of `re.findall(r'\w+', s)`. -/
def pyWords (s : String) : List String :=
  pyWordsAux s.length s.toList

/-- Fuel-driven scanner for `re.findall(lit1|lit2|...)` where every
alternative is a literal: at each position the first alternative that
matches wins, and scanning resumes after the match. -/
def altScanAux (alts : List String) : Nat → List Char → List String
  | 0, _ => []
  | _ + 1, [] => []
  | fuel + 1, l@(_ :: rest) =>
    match alts.find? (fun a => a.toList.isPrefixOf l) with
    | some a => a :: altScanAux alts fuel (l.drop a.length)
    | none => altScanAux alts fuel rest

/-- Model of `re.findall` of an alternation of literal strings. -/
def altScan (alts : List String) (s : String) : List String :=
  altScanAux alts s.length s.toList

/-- Match the date pattern `\d{4} s1 \d{1,2} s2 \d{1,2} s3` at the head of
the character list; returns the matched text and the remainder.  The
two-digit groups are greedy with the single regex backtracking step. -/
def matchTwoDigitsThen (lit : String) (l : List Char) :
    Option (List Char × List Char) :=
  match l with
  | d1 :: d2 :: rest =>
    if d1.isDigit && d2.isDigit && lit.toList.isPrefixOf rest then
      some ([d1, d2] ++ lit.toList, rest.drop lit.length)
    else if d1.isDigit && lit.toList.isPrefixOf (d2 :: rest) then
      some ([d1] ++ lit.toList, (d2 :: rest).drop lit.length)
    else
      none
  | [d1] =>
    if d1.isDigit && lit.toList.isPrefixOf [] then
      some ([d1] ++ lit.toList, [])
    else
      none
  | [] => none

/-- Match a whole date pattern `\d{4} s1 \d{1,2} s2 \d{1,2} s3` at the head
of the list. -/
def matchDateAt (s1 s2 s3 : String) (l : List Char) :
    Option (String × List Char) :=
  let four := l.take 4
  if four.length = 4 && four.all Char.isDigit && s1.toList.isPrefixOf (l.drop 4) then
    let rest1 := (l.drop 4).drop s1.length
    match matchTwoDigitsThen s2 rest1 with
    | some (m1, rest2) =>
      match matchTwoDigitsThen s3 rest2 with
      | some (m2, rest3) =>
        some (String.mk (four ++ s1.toList ++ m1 ++ m2), rest3)
      | none => none
    | none => none
  else
    none

/-- Fuel-driven scanner collecting non-overlapping date matches. -/
def dateScanAux (s1 s2 s3 : String) : Nat → List Char → List String
  | 0, _ => []
  | _ + 1, [] => []
  | fuel + 1, l@(_ :: rest) =>
    match matchDateAt s1 s2 s3 l with
    | some (m, rest') => m :: dateScanAux s1 s2 s3 fuel rest'
    | none => dateScanAux s1 s2 s3 fuel rest

/-- Model of `re.findall` of one of the three literal date patterns of
`_extract_time_range`. -/
def dateScan (s1 s2 s3 : String) (q : String) : List String :=
  dateScanAux s1 s2 s3 q.length q.toList

/-- Scanner for `re.findall(r'PRE(\w+)', s)` where `PRE` is a literal
(patterns `按(\w+)`, `每个(\w+)`, `各个(\w+)`). -/
def prefixCaptureAux (pre : String) : Nat → List Char → List String
  | 0, _ => []
  | _ + 1, [] => []
  | fuel + 1, l@(_ :: rest) =>
    if pre.toList.isPrefixOf l then
      let after := l.drop pre.length
      let run := after.takeWhile wordChar
      if run.isEmpty then prefixCaptureAux pre fuel rest
      else String.mk run :: prefixCaptureAux pre fuel (after.dropWhile wordChar)
    else
      prefixCaptureAux pre fuel rest

/-- Model of `re.findall(r'PRE(\w+)', s)`. -/
def prefixCapture (pre : String) (s : String) : List String :=
  prefixCaptureAux pre s.length s.toList

/-- Scanner for `re.findall(r'(\w+)SUF', s)` (pattern `(\w+)的`): a maximal
word run followed by the literal suffix. -/
def suffixCaptureAux (suf : String) : Nat → List Char → List String
  | 0, _ => []
  | _ + 1, [] => []
  | fuel + 1, c :: rest =>
    if wordChar c then
      let run := c :: rest.takeWhile wordChar
      let after := rest.dropWhile wordChar
      if suf.toList.isPrefixOf after then
        String.mk run :: suffixCaptureAux suf fuel (after.drop suf.length)
      else
        suffixCaptureAux suf fuel after
    else
      suffixCaptureAux suf fuel rest

/-- Model of `re.findall(r'(\w+)SUF', s)`. -/
def suffixCapture (suf : String) (s : String) : List String :=
  suffixCaptureAux suf s.length s.toList

/-- One-position match of a filter pattern `(\w+)\s*(OP1|OP2|...)\s*(VAL+)`
where `VAL` is a character class; returns `(field, value, rest)`. -/
def matchFilterAt (ops : List String) (valChar : Char → Bool) (l : List Char) :
    Option (String × String × List Char) :=
  match l with
  | [] => none
  | c :: rest =>
    if wordChar c then
      let fieldRun := c :: rest.takeWhile wordChar
      let afterField := rest.dropWhile wordChar
      let afterWs := afterField.dropWhile wsChar
      match ops.find? (fun o => o.toList.isPrefixOf afterWs) with
      | some o =>
        let afterOp := (afterWs.drop o.length).dropWhile wsChar
        let valRun := afterOp.takeWhile valChar
        if valRun.isEmpty then none
        else some (String.mk fieldRun, String.mk valRun, afterOp.dropWhile valChar)
      | none => none
    else
      none

/-- Fuel-driven scanner collecting all matches of a filter pattern. -/
def filterScanAux (ops : List String) (valChar : Char → Bool) :
    Nat → List Char → List (String × String)
  | 0, _ => []
  | _ + 1, [] => []
  | fuel + 1, l@(_ :: rest) =>
    match matchFilterAt ops valChar l with
    | some (f, v, rest') => (f, v) :: filterScanAux ops valChar fuel rest'
    | none => filterScanAux ops valChar fuel rest

/-- Model of `re.findall` of a comparison pattern of `_extract_filters`. -/
def filterScan (ops : List String) (valChar : Char → Bool) (s : String) :
    List (String × String) :=
  filterScanAux ops valChar s.length s.toList

/-- The deduplication loop shared by `_deduplicate_results` (keyed by
document id) and our model of Python `list(set(...))` (keyed by the element
itself): keep an element when its key has not been seen yet. -/
def dedupKeyGo {α : Type} (key : α → String) : List String → List α → List α
  | _, [] => []
  | seen, x :: rest =>
    if seen.contains (key x) then dedupKeyGo key seen rest
    else x :: dedupKeyGo key (key x :: seen) rest

/-- First-occurrence deduplication of a list of strings.  Python's
`list(set(xs))` has implementation-defined order; we model it as
first-occurrence order (only membership is relied upon downstream). -/
def pyDedupFirst (xs : List String) : List String :=
  dedupKeyGo (fun s => s) [] xs

/-! ## QueryParser (`src/main/online/query_parser.py`) -/

/-- A relative-time keyword resolves to a single date or to a
(start, end) date pair (`time_patterns`). -/
inductive TimeVal where
  | single (d : String)
  | range (s e : String)
deriving DecidableEq

/-- The values the clock-dependent helpers (`_get_week_range`, ...) would
produce at the current instant; `datetime.now()` is external, so these are
supplied as a parameter. -/
structure TimeProvider where
  today : String
  yesterday : String
  week : String × String
  last_week : String × String
  month : String × String
  last_month : String × String
  year : String × String
  last_year : String × String
deriving DecidableEq

/-- The `explicit_time` field is dynamically typed in Python: either a
single date (from a relative keyword) or the list of literal date matches. -/
inductive ExplicitTime where
  | date (d : String)
  | dates (ds : List String)
deriving DecidableEq

/-- The `time_range` dictionary of `_extract_time_range`. -/
structure TimeInfo where
  explicit_time : Option ExplicitTime
  relative_time : Option String
  start_date : Option String
  end_date : Option String
deriving DecidableEq

/-- One filter record of `_extract_filters`. -/
structure Filter where
  field : String
  operator : String
  value : String
deriving DecidableEq

/-- The dictionary returned by `QueryParser.parse_query`. -/
structure ParsedQuery where
  original_query : String
  entities : List String
  time_range : TimeInfo
  metrics : List String
  dimensions : List String
  filters : List Filter
  intent : String
  aggregation_type : Option String
deriving DecidableEq

/-- The table `self.time_patterns`, in insertion (= literal) order. -/
def time_patterns (tp : TimeProvider) : List (String × TimeVal) :=
  [("今天", .single tp.today),
   ("昨天", .single tp.yesterday),
   ("本周", .range tp.week.1 tp.week.2),
   ("上周", .range tp.last_week.1 tp.last_week.2),
   ("本月", .range tp.month.1 tp.month.2),
   ("上月", .range tp.last_month.1 tp.last_month.2),
   ("今年", .range tp.year.1 tp.year.2),
   ("去年", .range tp.last_year.1 tp.last_year.2)]

/-- The list `self.metric_patterns`: each entry is one alternation regex. -/
def metric_patterns : List (List String) :=
  [["总额", "总金额", "总计", "合计"],
   ["平均值", "均值", "平均"],
   ["最大值", "最高", "最大"],
   ["最小值", "最低", "最小"],
   ["数量", "个数", "总数"],
   ["客单价", "人均消费"],
   ["销售额", "营收", "收入"],
   ["利润", "盈利"],
   ["成本", "花费"]]

/-- The table `self.aggregation_patterns`, in insertion order. -/
def aggregation_patterns : List (String × List String) :=
  [("sum", ["总额", "总金额", "总计", "合计", "销售额", "营收", "收入"]),
   ("avg", ["平均值", "均值", "平均", "客单价", "人均消费"]),
   ("max", ["最大值", "最高", "最大"]),
   ("min", ["最小值", "最低", "最小"]),
   ("count", ["数量", "个数", "总数"])]

/-- The stoplist of generic verbs excluded by `_extract_entities`. -/
def entityStoplist : List String := ["查询", "显示", "获取", "计算", "统计"]

/-- Model of `QueryParser._extract_entities`: keep every word token longer than two
characters that is not in the stoplist (the loop appends each qualifying
occurrence; there is no deduplication). -/
def extract_entities (query : String) : List String :=
  (pyWords query).filter (fun w => 2 < w.length && !entityStoplist.contains w)

/-- Model of `QueryParser._extract_time_range`: scan the relative-keyword table in
order (each hit overwrites the fields), then the three literal date regexes;
any literal matches overwrite `explicit_time`. -/
def extract_time_range (tp : TimeProvider) (query : String) : TimeInfo :=
  let base : TimeInfo :=
    { explicit_time := none, relative_time := none, start_date := none, end_date := none }
  let afterRel := (time_patterns tp).foldl
    (fun info p =>
      if containsSub query p.1 then
        match p.2 with
        | .range s e =>
          { info with relative_time := some p.1, start_date := some s, end_date := some e }
        | .single d =>
          { info with relative_time := some p.1, explicit_time := some (.date d) }
      else info) base
  let dates := dateScan "-" "-" "" query ++ dateScan "/" "/" "" query ++
    dateScan "年" "月" "日" query
  if dates.isEmpty then afterRel
  else { afterRel with explicit_time := some (.dates dates) }

/-- Model of `QueryParser._extract_metrics`: findall each alternation pattern, then
`list(set(...))` (modelled as first-occurrence deduplication). -/
def extract_metrics (query : String) : List String :=
  pyDedupFirst ((metric_patterns.map (fun p => altScan p query)).flatten)

/-- Model of `QueryParser._extract_dimensions`: the four grouping patterns in source
order, then `list(set(...))`. -/
def extract_dimensions (query : String) : List String :=
  pyDedupFirst (prefixCapture "按" query ++ suffixCapture "的" query ++
    prefixCapture "每个" query ++ prefixCapture "各个" query)

/-- The six comparison patterns of `_extract_filters`: operator
alternatives and the value character class, with the operator tag. -/
def filterPatterns : List (List String × (Char → Bool) × String) :=
  [(["大于", ">"], Char.isDigit, "gt"),
   (["小于", "<"], Char.isDigit, "lt"),
   (["等于", "=", "是"], wordChar, "eq"),
   (["不等于", "!=", "不是"], wordChar, "ne"),
   (["在", "包含"], fun c => wordChar c || c = ',', "in"),
   (["不在", "不包含"], fun c => wordChar c || c = ',', "not_in")]

/-- Model of `QueryParser._extract_filters`: one filter record per regex match. -/
def extract_filters (query : String) : List Filter :=
  (filterPatterns.map
    (fun p => (filterScan p.1 p.2.1 query).map
      (fun m => { field := m.1, operator := p.2.2, value := m.2 : Filter }))).flatten

/-- Model of `QueryParser._classify_intent`: the keyword groups in source order; the
first group with a hit in the lower-cased query wins, otherwise `simple`. -/
def classify_intent (query : String) : String :=
  let ql := pyLower query
  if ["统计", "计算", "多少", "几个"].any (fun w => containsSub ql w) then "aggregation"
  else if ["最高", "最大", "最低", "最小"].any (fun w => containsSub ql w) then "extreme"
  else if ["平均", "均值"].any (fun w => containsSub ql w) then "average"
  else if ["排名", "排行", "top"].any (fun w => containsSub ql w) then "ranking"
  else if ["趋势", "变化", "增长"].any (fun w => containsSub ql w) then "trend"
  else if ["占比", "比例", "百分比"].any (fun w => containsSub ql w) then "proportion"
  else "simple"

/-- Model of `QueryParser._detect_aggregation`: first synonym group (in insertion
order sum, avg, max, min, count) with a hit; otherwise `None`. -/
def detect_aggregation (query : String) : Option String :=
  let ql := pyLower query
  ((aggregation_patterns.find? (fun p => p.2.any (fun w => containsSub ql w))).map (·.1))

/-- Model of `QueryParser.parse_query`. -/
def parse_query (tp : TimeProvider) (query : String) : ParsedQuery :=
  { original_query := query
    entities := extract_entities query
    time_range := extract_time_range tp query
    metrics := extract_metrics query
    dimensions := extract_dimensions query
    filters := extract_filters query
    intent := classify_intent query
    aggregation_type := detect_aggregation query }

/-- Model of `QueryParser.enhance_search_query`: original text plus space-joined
entities, metrics and dimensions (each section only when non-empty). -/
def enhance_search_query (original_query : String) (p : ParsedQuery) : String :=
  let parts := [original_query] ++
    (if p.entities.isEmpty then [] else [String.intercalate " " p.entities]) ++
    (if p.metrics.isEmpty then [] else [String.intercalate " " p.metrics]) ++
    (if p.dimensions.isEmpty then [] else [String.intercalate " " p.dimensions])
  String.intercalate " " parts

/-! ## SQLValidator (`src/main/online/sql_validator.py`)

The sqlglot parsing capability is an external collaborator; it is modelled
as a function `String → ParseOutcome` returning, for each SQL text, either
the list of parsed statements — of which the validator only reads the table
names (`find_all(exp.Table)`) and the column references
(`find_all(exp.Column)`) — or a parse-error message (`str(e)` of the raised
`ParseError`).  The database engine used by `dry_run` is modelled as a
statement-execution function `String → Except String Unit` (`create_engine`
itself opens no connection, so engine construction does not appear). -/

/-- A column reference as read off the sqlglot AST: optional qualifying
table name, and the column name. -/
structure ColumnRef where
  table : Option String
  name : String
deriving DecidableEq

/-- What `validate_semantics` reads from one parsed statement. -/
structure ParsedStmt where
  tables : List String
  columns : List ColumnRef
deriving DecidableEq

/-- Result of the external `sqlglot.parse` call. -/
inductive ParseOutcome where
  | ok (stmts : List ParsedStmt)
  | err (msg : String)
deriving DecidableEq

/-- One table entry of the retrieved schema context (`context['tables']`):
name, stored document, stored metadata and retrieval distance. -/
structure FKRef where
  table : String
  column : String
deriving DecidableEq

/-- One foreign-key record of the knowledge-store metadata. -/
structure ForeignKey where
  column : String
  references : FKRef
deriving DecidableEq

/-- The knowledge-store metadata of one table document. -/
structure TableMeta where
  table_name : String
  columns : List String
  primary_keys : List String
  foreign_keys : List ForeignKey
  row_count : Nat
deriving DecidableEq

/-- One entry of `context['tables']` as built by `_build_context`. -/
structure TableCtx where
  name : String
  document : String
  metadata : TableMeta
  score : ℚ
deriving DecidableEq

/-- One relationship record of `_extract_relationships`. -/
structure Relationship where
  from_table : String
  from_column : String
  to_table : String
  to_column : String
deriving DecidableEq

/-- The context dictionary metadata block of `_build_context`. -/
structure CtxMeta where
  query_type : String
  aggregation_type : Option String
  time_range : TimeInfo
deriving DecidableEq

/-- The schema-context dictionary produced by `RAGRetriever`. -/
structure SchemaContext where
  tables : List TableCtx
  relationships : List Relationship
  schema_text : String
  business_rules : Option String
  metadata : CtxMeta
deriving DecidableEq

/-- Python `SQLValidator.validate_syntax`: parse; an empty statement list is the
"Empty SQL query" failure, a raised `ParseError` is reported with its
message. -/
def validate_syntax_stage (parse : String → ParseOutcome) (sql : String) :
    Bool × Option String :=
  match parse sql with
  | .ok [] => (false, some "Empty SQL query")
  | .ok (_ :: _) => (true, none)
  | .err m => (false, some ("SQL syntax error: " ++ m))

/-- The string form of a column reference as built by `validate_semantics`
(`f"{column.table.name}.{column.name}"` for qualified references). -/
def colString (c : ColumnRef) : String :=
  match c.table with
  | some t => t ++ "." ++ c.name
  | none => c.name

/-- The per-table invalid-column set of `validate_semantics`: restrict the
query's column strings to those qualified with this table or unqualified,
strip the qualifier, and subtract the table's known columns.  Python builds
sets here; they are modelled as first-occurrence-deduplicated lists. -/
def invalidColsFor (ti : TableCtx) (t : String) (cols : List String) : List String :=
  let tcols := pyDedupFirst
    ((cols.filter (fun c => strIsPrefixOf (t ++ ".") c || !(strContainsChar c '.'))).map
      (fun c => if strContainsChar c '.' then (pySplitChar '.' c).getD 1 "" else c))
  tcols.filter (fun c => !(ti.metadata.columns.contains c))

/-- The per-table loop of `validate_semantics`: the first table whose
invalid-column set is non-empty produces the failure (a table name with no
entry in the context list is skipped, mirroring `if table_info:`). -/
def semCheckTables (ctxTables : List TableCtx) (cols : List String) :
    List String → Bool × Option String
  | [] => (true, none)
  | t :: rest =>
    match ctxTables.find? (fun x => x.name == t) with
    | none => semCheckTables ctxTables cols rest
    | some ti =>
      let invalid := invalidColsFor ti t cols
      if invalid.isEmpty then semCheckTables ctxTables cols rest
      else (false, some ("Invalid column(s) in table " ++ t ++ ": " ++
        String.intercalate ", " invalid))

/-- Model of `SQLValidator.validate_semantics`.  Python iterates over sets of table
names and column strings; set construction is modelled as
first-occurrence deduplication and set joins in first-occurrence order (the
validity verdict does not depend on the order, only reported error strings
do). -/
def validate_semantics (parse : String → ParseOutcome) (ctx : SchemaContext)
    (sql : String) : Bool × Option String :=
  match parse sql with
  | .err m => (false, some ("Error during semantic validation: " ++ m))
  | .ok [] => (false, some "Error during semantic validation: list index out of range")
  | .ok (st :: _) =>
    let tablesInQuery := pyDedupFirst st.tables
    let colsInQuery := pyDedupFirst (st.columns.map colString)
    let availTables := ctx.tables.map (·.name)
    let invalidTables := tablesInQuery.filter (fun t => !(availTables.contains t))
    if !invalidTables.isEmpty then
      (false, some ("Invalid table(s): " ++ String.intercalate ", " invalidTables))
    else
      semCheckTables ctx.tables colsInQuery tablesInQuery

/-- Model of `SQLValidator.dry_run`: EXPLAIN for mysql, PREPARE for postgresql (both
through the engine, with failures wrapped as "Dry run failed: ..."); any
other dialect falls back to `validate_syntax_stage`. -/
def dry_run (engine : String → Except String Unit) (dialect : String)
    (parse : String → ParseOutcome) (sql : String) : Bool × Option String :=
  if dialect = "mysql" then
    match engine ("EXPLAIN " ++ sql) with
    | .ok _ => (true, none)
    | .error e => (false, some ("Dry run failed: " ++ e))
  else if dialect = "postgresql" then
    match engine ("PREPARE test_plan AS " ++ sql) with
    | .ok _ => (true, none)
    | .error e => (false, some ("Dry run failed: " ++ e))
  else
    validate_syntax_stage parse sql

/-- The matches of `re.findall(r'= (\w+)(?:\s|$|,|\))', sql)` used by
`_apply_basic_fixes`: literal "= ", a maximal word run, then a whitespace
character, a comma, a closing parenthesis or the end of the string (the
follower character is consumed, so scanning resumes after it). -/
def findEqMatchesAux : Nat → List Char → List String
  | 0, _ => []
  | _ + 1, [] => []
  | fuel + 1, '=' :: ' ' :: rest =>
    let run := rest.takeWhile wordChar
    let rest' := rest.dropWhile wordChar
    if !run.isEmpty &&
        (rest'.isEmpty || wsChar (rest'.headD ' ') || rest'.headD ' ' = ',' ||
          rest'.headD ' ' = ')') then
      String.mk run :: findEqMatchesAux fuel rest'.tail
    else
      findEqMatchesAux fuel (' ' :: rest)
  | fuel + 1, _ :: rest => findEqMatchesAux fuel rest

/-- Model of `re.findall(r'= (\w+)(?:\s|$|,|\))', sql)`. -/
def findEqMatches (sql : String) : List String :=
  findEqMatchesAux sql.length sql.toList

/-- Model of `SQLValidator._apply_basic_fixes`: only when the error message contains
"Unknown column", rewrite each non-numeric bare identifier following an
equality into a quoted literal (`str.replace` hits every occurrence of the
text "= <match>").  The "in field list" branch of the source is a no-op. -/
def apply_basic_fixes (sql error : String) : String :=
  if containsSub error "Unknown column" then
    (findEqMatches sql).foldl
      (fun acc m =>
        if isDigits m then acc
        else replaceAll acc ("= " ++ m) ("= " ++ sq ++ m ++ sq))
      sql
  else
    sql

/-- Model of `SQLValidator.validate_and_fix`: syntax, then semantics with the single
auto-fix attempt (re-running syntax and semantics on the fixed SQL, and
skipping the dry run when the fix is accepted), then the dry run. -/
def validate_and_fix (parse : String → ParseOutcome)
    (engine : String → Except String Unit) (dialect : String)
    (ctx : SchemaContext) (sql : String) : Bool × String × Option String :=
  let s1 := validate_syntax_stage parse sql
  if !s1.1 then (false, sql, s1.2)
  else
    let s2 := validate_semantics parse ctx sql
    if !s2.1 then
      let fixed := apply_basic_fixes sql (pyStr s2.2)
      if fixed ≠ sql then
        let s3 := validate_syntax_stage parse fixed
        if s3.1 then
          let s4 := validate_semantics parse ctx fixed
          if s4.1 then (true, fixed, none)
          else (false, sql, s4.2)
        else (false, sql, s3.2)
      else (false, sql, s2.2)
    else
      let s5 := dry_run engine dialect parse sql
      if !s5.1 then (false, sql, s5.2)
      else (true, sql, none)

/-- Number of `_apply_basic_fixes` invocations performed by one
`validate_and_fix` call, read off the control flow of the source: exactly
one when syntax passes and semantics fails, zero otherwise. -/
def autofix_attempts (parse : String → ParseOutcome) (ctx : SchemaContext)
    (sql : String) : Nat :=
  if !(validate_syntax_stage parse sql).1 then 0
  else if !(validate_semantics parse ctx sql).1 then 1
  else 0

/-! ## RAGRetriever (`src/main/online/rag_retriever.py`)

`self.vector_db.search(query, top_k, where={'type': 'table'})` is an
external capability; it is modelled as a function `String → List
SearchResult` (the `top_k` bound and the metadata filter live inside the
oracle).  `retrieve_business_rules` reads one document from the store and is
modelled as an `Option String` parameter. -/

/-- One scored match returned by the vector-store search. -/
structure SearchResult where
  id : String
  document : String
  metadata : TableMeta
  distance : ℚ
deriving DecidableEq

/-- The score filter of `retrieve_context`: keep a result only if
`distance <= 1 - score_threshold`. -/
def filteredSearch (search : String → List SearchResult) (score_threshold : ℚ)
    (sq' : String) : List SearchResult :=
  (search sq').filter (fun r => decide (r.distance ≤ 1 - score_threshold))

/-- The merged result list of `retrieve_context`: for each search query, the
score-filtered results, concatenated in order (`all_results.extend`). -/
def allResults (search : String → List SearchResult) (score_threshold : ℚ)
    (queries : List String) : List SearchResult :=
  (queries.map (filteredSearch search score_threshold)).flatten

/-- Model of `RAGRetriever._deduplicate_results`: drop any result whose document id
was already seen. -/
def deduplicate_results (results : List SearchResult) : List SearchResult :=
  dedupKeyGo (·.id) [] results

/-- Model of `RAGRetriever._extract_relationships`: for each retained table, keep a
foreign key only when the referenced table is also among the retained table
names. -/
def extract_relationships (tables : List TableCtx) : List Relationship :=
  (tables.map (fun t =>
    t.metadata.foreign_keys.filterMap (fun fk =>
      if (tables.map (·.name)).contains fk.references.table then
        some { from_table := t.name, from_column := fk.column,
               to_table := fk.references.table, to_column := fk.references.column }
      else none))).flatten

/-- Model of `RAGRetriever._build_context`: table entries and schema text from the
deduplicated results, relationships only when more than one table was
retained, business rules attached when the fetched document is non-empty
(`if business_rules:`). -/
def build_context (business_rules : Option String)
    (results : List SearchResult) (parsed : ParsedQuery) : SchemaContext :=
  let tables := results.map (fun r =>
    { name := r.metadata.table_name, document := r.document,
      metadata := r.metadata, score := r.distance : TableCtx })
  let schema_text := results.foldl
    (fun acc r => acc ++ "\n\n--- Table: " ++ r.metadata.table_name ++ " ---\n" ++
      r.document) ""
  let rels := if 1 < tables.length then extract_relationships tables else []
  let br := match business_rules with
    | some s => if strIsEmpty s then none else some s
    | none => none
  { tables := tables, relationships := rels, schema_text := schema_text,
    business_rules := br,
    metadata := { query_type := parsed.intent,
                  aggregation_type := parsed.aggregation_type,
                  time_range := parsed.time_range } }

/-- Model of `RAGRetriever.retrieve_context`: parse the query; with hybrid search use
the original and the enhanced query, otherwise the original only; filter
each search by the score threshold, merge, deduplicate and build the
context. -/
def retrieve_context (search : String → List SearchResult)
    (business_rules : Option String) (tp : TimeProvider) (query : String)
    (score_threshold : ℚ) (use_hybrid_search : Bool) : SchemaContext :=
  let parsed := parse_query tp query
  let search_queries :=
    if use_hybrid_search then [query, enhance_search_query query parsed]
    else [query]
  let unique_results :=
    deduplicate_results (allResults search score_threshold search_queries)
  build_context business_rules unique_results parsed

/-! ## Orchestrator (`src/main/text2sql.py`)

`Text2SQL.query_to_sql` composes external collaborators: the generation
capability (`llm_manager.generate_sql` / `llm_manager.correct_sql`), the
validator (`sql_validator.validate_and_fix`, which itself wraps the parser
and the engine) and the executor (`sql_validator.execute_query`).  They are
modelled as function parameters: `genSql` is the SQL produced by the single
initial generation call, `correct lastSql lastError` the SQL produced by
the generation call of one correction attempt, `validate` the full
validate-and-fix outcome `(is_valid, fixed_sql, error)`, and `exec'` the
execution outcome `(success, results, error)`.  Alongside the result
dictionary, the model returns the number of correction-generation calls
performed, so "no further generation call" is a provable statement. -/

/-- Execution rows: a list of rows, each a list of column-name/value pairs.
The orchestrator never inspects them. -/
abbrev Rows := List (List (String × String))

/-- The result dictionary of `query_to_sql`.  `error` and `execution_error`
are keys only added on the corresponding failure paths, hence options. -/
structure QueryResult where
  query : String
  sql : Option String
  is_valid : Bool
  execution_results : Option Rows
  correction_attempts : Nat
  error : Option String
  execution_error : Option String
deriving DecidableEq

/-- The correction loop of `query_to_sql` (`for attempt in range(1,
max_correction_attempts + 1)`), with `rem` the remaining iterations and
`attempt` the current attempt number.  Returns the result dictionary, the
final value of the `error` variable, and the number of correction-
generation calls made. -/
def corrLoop (validate : String → Bool × String × Option String)
    (exec' : String → Bool × Option Rows × Option String)
    (correct : String → String → String) (r0 : QueryResult) :
    String → Option String → Nat → Nat → QueryResult × Option String × Nat
  | _, err, 0, _ => (r0, err, 0)
  | sql, err, rem + 1, attempt =>
    let corrected := correct sql (pyStr err)
    let v := validate corrected
    if v.1 then
      let e := exec' v.2.1
      let r' :=
        if e.1 then
          { r0 with
            sql := some v.2.1, is_valid := true,
            correction_attempts := attempt, execution_results := e.2.1 }
        else
          { r0 with
            sql := some v.2.1, is_valid := true,
            correction_attempts := attempt, execution_error := e.2.2 }
      (r', v.2.2, 1)
    else
      let rec' := corrLoop validate exec' correct r0 corrected v.2.2 rem (attempt + 1)
      (rec'.1, rec'.2.1, rec'.2.2 + 1)

/-- Model of `Text2SQL.query_to_sql`: validate the initially generated SQL; if valid,
execute and return; otherwise run the correction loop and, if it never
succeeds, report `Failed after N correction attempts. Last error: ...`. -/
def query_to_sql (validate : String → Bool × String × Option String)
    (exec' : String → Bool × Option Rows × Option String)
    (correct : String → String → String) (query genSql : String)
    (max_correction_attempts : Nat) : QueryResult × Nat :=
  let r0 : QueryResult :=
    { query := query, sql := some genSql, is_valid := false,
      execution_results := none, correction_attempts := 0, error := none,
      execution_error := none }
  let v := validate genSql
  if v.1 then
    let e := exec' v.2.1
    (if e.1 then
      { r0 with sql := some v.2.1, is_valid := true, execution_results := e.2.1 }
    else
      { r0 with sql := some v.2.1, is_valid := true, execution_error := e.2.2 }, 0)
  else
    let lp := corrLoop validate exec' correct r0 genSql v.2.2
      max_correction_attempts 1
    if lp.1.is_valid then (lp.1, lp.2.2)
    else
      ({ lp.1 with error := some ("Failed after " ++
          toString max_correction_attempts ++
          " correction attempts. Last error: " ++ pyStr lp.2.1) }, lp.2.2)

/-! ## Concrete instances used by counterexamples and witnesses -/

/-- A trivial clock: the claims settled below never depend on the computed
dates. -/
def tp0 : TimeProvider := ⟨"", "", ("", ""), ("", ""), ("", ""), ("", ""), ("", ""), ("", "")⟩

/-- An empty time-range record. -/
def emptyTime : TimeInfo := ⟨none, none, none, none⟩

/-- A validator collaborator that rejects every SQL with the same message. -/
def c1validate : String → Bool × String × Option String := fun s => (false, s, some "boom")

/-- An executor collaborator that always succeeds. -/
def c1exec : String → Bool × Option Rows × Option String := fun _ => (true, none, none)

/-- A generation collaborator producing a fixed corrected SQL. -/
def c1correct : String → String → String := fun _ _ => "SELECT 2"

def c2meta1 : TableMeta := ⟨"t1", ["a"], [], [], 0⟩

def c2meta2 : TableMeta := ⟨"t2", ["b"], [], [], 0⟩

/-- Context with two tables: `t1` has column `a`, `t2` has column `b`. -/
def c2ctx : SchemaContext :=
  ⟨[⟨"t1", "", c2meta1, 0⟩, ⟨"t2", "", c2meta2, 0⟩], [], "", none, ⟨"simple", none, emptyTime⟩⟩

/-- A statement referencing both tables and the single bare column `a`. -/
def c2stmt : ParsedStmt := ⟨["t1", "t2"], [⟨none, "a"⟩]⟩

def c2sql : String := "SELECT a FROM t1, t2"

/-- Parse oracle for `c2sql`. -/
def c2parse : String → ParseOutcome :=
  fun s => if s = c2sql then .ok [c2stmt] else .err "unparsed"

/-- SQL referencing a backquoted table named "Unknown column" (absent from
the context) and containing the text "= abc" both bare and inside a string
literal, so that `_apply_basic_fixes` corrupts the literal. -/
def c3sql : String :=
  "SELECT a FROM `Unknown column` WHERE a = abc AND b = " ++ sq ++ "x = abc" ++ sq

/-- The output of `_apply_basic_fixes` on `c3sql` (both occurrences of
"= abc" quoted, breaking the string literal). -/
def c3fixed : String :=
  "SELECT a FROM `Unknown column` WHERE a = " ++ sq ++ "abc" ++ sq ++
    " AND b = " ++ sq ++ "x = " ++ sq ++ "abc" ++ sq ++ sq

def c3stmt : ParsedStmt :=
  ⟨["Unknown column"], [⟨none, "a"⟩, ⟨none, "abc"⟩, ⟨none, "b"⟩]⟩

/-- Parse oracle: `c3sql` parses (table `Unknown column`, bare columns `a`,
`abc`, `b`); the corrupted rewrite raises a parse error. -/
def c3parse : String → ParseOutcome :=
  fun s =>
    if s = c3sql then .ok [c3stmt]
    else if s = c3fixed then .err "Invalid expression"
    else .err "unparsed"

def c3meta : TableMeta := ⟨"t", ["a", "b", "abc"], [], [], 0⟩

def c3ctx : SchemaContext :=
  ⟨[⟨"t", "", c3meta, 0⟩], [], "", none, ⟨"simple", none, emptyTime⟩⟩

def c3engine : String → Except String Unit := fun _ => .ok ()

/-- The pre-fix semantic error of `c3sql`. -/
def c3preErr : String := "Invalid table(s): Unknown column"

/-- The error actually returned by `validate_and_fix` on `c3sql`. -/
def c3postErr : String := "SQL syntax error: Invalid expression"

/-- A validator collaborator that accepts every SQL unchanged. -/
def c4validate : String → Bool × String × Option String := fun s => (true, s, none)

/-- A validator that rejects only the SQL text "BAD". -/
def c4validateB : String → Bool × String × Option String :=
  fun s => if s = "BAD" then (false, s, some "e0") else (true, s, none)

/-- An executor collaborator that always fails. -/
def c4exec : String → Bool × Option Rows × Option String :=
  fun _ => (false, none, some "Execution failed: timeout")

def c4correct : String → String → String := fun _ _ => "SELECT 2"

def c5meta : TableMeta := ⟨"m", [], [], [], 0⟩

/-- A match at exactly the score boundary for threshold 1/2. -/
def c5r1 : SearchResult := ⟨"d1", "", c5meta, 1/2⟩

/-- A match beyond the score boundary for threshold 1/2. -/
def c5r2 : SearchResult := ⟨"d2", "", c5meta, 3/4⟩

def c5search : String → List SearchResult :=
  fun s => if s = "q" then [c5r1, c5r2] else []

def c7usersMeta : TableMeta := ⟨"users", ["id", "city"], ["id"], [], 0⟩

def c7ordersMeta : TableMeta :=
  ⟨"orders", ["id", "user_id"], ["id"], [⟨"user_id", ⟨"users", "id"⟩⟩], 0⟩

def c7r1 : SearchResult := ⟨"table_users", "CREATE TABLE users", c7usersMeta, 0⟩

def c7r2 : SearchResult := ⟨"table_orders", "CREATE TABLE orders", c7ordersMeta, 0⟩

def c7search : String → List SearchResult :=
  fun s => if s = "q" then [c7r1, c7r2] else []

/-- The relationship derived from the `orders.user_id -> users.id` foreign
key. -/
def c7rel : Relationship := ⟨"orders", "user_id", "users", "id"⟩

def c10parse : String → ParseOutcome := fun _ => .ok [⟨[], []⟩]

def c10engine : String → Except String Unit := fun _ => .error "no database"

def c10engineB : String → Except String Unit := fun _ => .ok ()

/-- The priority-ordered intent rule table as the spec states it (§4.1):
first group with a keyword hit in the lower-cased text wins, otherwise
`simple`.  This is the spec-side definition compared with
`classify_intent`. -/
def intent_rule_table : List (String × List String) :=
  [("aggregation", ["统计", "计算", "多少", "几个"]),
   ("extreme", ["最高", "最大", "最低", "最小"]),
   ("average", ["平均", "均值"]),
   ("ranking", ["排名", "排行", "top"]),
   ("trend", ["趋势", "变化", "增长"]),
   ("proportion", ["占比", "比例", "百分比"])]

/-- Spec-side intent classification: label of the first rule group with a
keyword occurring in the lower-cased text, else `simple`. -/
def intent_by_rules (query : String) : String :=
  (((intent_rule_table).find?
    (fun g => g.2.any (fun w => containsSub (pyLower query) w))).map (·.1)).getD "simple"

/-! ## Helper lemmas -/

theorem dedupKeyGo_sublist {α : Type} (key : α → String) (seen : List String)
    (l : List α) : (dedupKeyGo key seen l).Sublist l := by
  induction l generalizing seen with
  | nil => simp [dedupKeyGo]
  | cons x rest ih =>
    simp only [dedupKeyGo]
    cases h : seen.contains (key x) with
    | true =>
      simp only [if_true]
      exact (ih seen).cons x
    | false =>
      simp only [Bool.false_eq_true, if_false]
      exact (ih (key x :: seen)).cons₂ x

theorem dedupKeyGo_key_not_seen {α : Type} (key : α → String) (seen : List String)
    (l : List α) : ∀ y ∈ dedupKeyGo key seen l, seen.contains (key y) = false := by
  induction l generalizing seen with
  | nil => simp [dedupKeyGo]
  | cons x rest ih =>
    intro y hy
    simp only [dedupKeyGo] at hy
    cases h : seen.contains (key x) with
    | true =>
      rw [h] at hy
      simp only [if_true] at hy
      exact ih seen y hy
    | false =>
      rw [h] at hy
      simp only [Bool.false_eq_true, if_false, List.mem_cons] at hy
      rcases hy with rfl | hy
      · exact h
      · have h2 := ih (key x :: seen) y hy
        simp only [List.contains_cons, Bool.or_eq_false_iff] at h2
        exact h2.2

theorem dedupKeyGo_map_key_nodup {α : Type} (key : α → String) (seen : List String)
    (l : List α) : ((dedupKeyGo key seen l).map key).Nodup := by
  induction l generalizing seen with
  | nil => simp [dedupKeyGo]
  | cons x rest ih =>
    simp only [dedupKeyGo]
    cases h : seen.contains (key x) with
    | true =>
      simp only [if_true]
      exact ih seen
    | false =>
      simp only [Bool.false_eq_true, if_false, List.map_cons, List.nodup_cons]
      refine ⟨?_, ih (key x :: seen)⟩
      intro hmem
      rcases List.mem_map.mp hmem with ⟨y, hy, hky⟩
      have hns := dedupKeyGo_key_not_seen key (key x :: seen) rest y hy
      rw [hky] at hns
      simp [List.contains_cons] at hns

theorem dedupKeyGo_find? {α : Type} (key : α → String) (seen : List String)
    (l : List α) (s : String) (hs : seen.contains s = false) :
    (dedupKeyGo key seen l).find? (fun r => key r == s) =
      l.find? (fun r => key r == s) := by
  induction l generalizing seen with
  | nil => simp [dedupKeyGo]
  | cons x rest ih =>
    simp only [dedupKeyGo]
    cases h : seen.contains (key x) with
    | true =>
      simp only [if_true]
      have hne : (key x == s) = false := by
        cases hb : key x == s with
        | false => rfl
        | true =>
          have : key x = s := by simpa using hb
          rw [this] at h
          rw [h] at hs
          exact hs
      rw [List.find?_cons_of_neg _ (by simp [hne]), ih seen hs]
    | false =>
      simp only [Bool.false_eq_true, if_false]
      cases hx : key x == s with
      | true =>
        rw [List.find?_cons_of_pos _ (by simp [hx]),
          List.find?_cons_of_pos _ (by simp [hx])]
      | false =>
        rw [List.find?_cons_of_neg _ (by simp [hx]),
          List.find?_cons_of_neg _ (by simp [hx])]
        refine ih (key x :: seen) ?_
        simp only [List.contains_cons, Bool.or_eq_false_iff]
        refine ⟨?_, hs⟩
        cases hb : s == key x with
        | false => rfl
        | true =>
          have : s = key x := by simpa using hb
          rw [this] at hx
          simp at hx

theorem mem_dedupKeyGo_id (seen : List String) (l : List String) (x : String) :
    x ∈ dedupKeyGo (fun s => s) seen l ↔ (x ∈ l ∧ seen.contains x = false) := by
  induction l generalizing seen with
  | nil => simp [dedupKeyGo]
  | cons y rest ih =>
    simp only [dedupKeyGo]
    cases h : seen.contains y with
    | true =>
      simp only [if_true, ih seen, List.mem_cons]
      constructor
      · rintro ⟨hm, hc⟩
        exact ⟨Or.inr hm, hc⟩
      · rintro ⟨hm | hm, hc⟩
        · rw [hm, h] at hc
          exact absurd hc (by simp)
        · exact ⟨hm, hc⟩
    | false =>
      simp only [Bool.false_eq_true, if_false, List.mem_cons, ih (y :: seen),
        List.contains_cons, Bool.or_eq_false_iff]
      constructor
      · rintro (rfl | ⟨hm, hx, hc⟩)
        · exact ⟨Or.inl rfl, h⟩
        · exact ⟨Or.inr hm, hc⟩
      · rintro ⟨rfl | hm, hc⟩
        · exact Or.inl rfl
        · by_cases hxy : x = y
          · exact Or.inl hxy
          · refine Or.inr ⟨hm, ?_, hc⟩
            simpa using hxy

theorem mem_pyDedupFirst (l : List String) (x : String) :
    x ∈ pyDedupFirst l ↔ x ∈ l := by
  rw [pyDedupFirst, mem_dedupKeyGo_id]
  simp

theorem mem_allResults (search : String → List SearchResult) (θ : ℚ)
    (queries : List String) (r : SearchResult) :
    r ∈ allResults search θ queries ↔
      ∃ q ∈ queries, r ∈ search q ∧ r.distance ≤ 1 - θ := by
  simp only [allResults, filteredSearch, List.mem_flatten, List.mem_map,
    List.mem_filter, decide_eq_true_eq]
  constructor
  · rintro ⟨l, ⟨q, hq, rfl⟩, hrl⟩
    rcases List.mem_filter.mp hrl with ⟨hr, hd⟩
    exact ⟨q, hq, hr, by simpa using hd⟩
  · rintro ⟨q, hq, hr, hd⟩
    refine ⟨(search q).filter (fun r => decide (r.distance ≤ 1 - θ)), ⟨q, hq, rfl⟩, ?_⟩
    exact List.mem_filter.mpr ⟨hr, by simpa using hd⟩

theorem corrLoop_all_fail (validate : String → Bool × String × Option String)
    (exec' : String → Bool × Option Rows × Option String)
    (correct : String → String → String) (r0 : QueryResult) (errMsg : String)
    (H : ∀ s, validate s = (false, s, some errMsg)) :
    ∀ rem attempt sql',
      corrLoop validate exec' correct r0 sql' (some errMsg) rem attempt =
        (r0, some errMsg, rem) := by
  intro rem
  induction rem with
  | zero => intro attempt sql'; rfl
  | succ n ih =>
    intro attempt sql'
    simp [corrLoop, H, ih]

theorem semCheckTables_true_iff (ctxT : List TableCtx) (cols : List String)
    (lst : List String) :
    (semCheckTables ctxT cols lst).1 = true ↔
      ∀ t ∈ lst, ∀ ti, ctxT.find? (fun x => x.name == t) = some ti →
        invalidColsFor ti t cols = [] := by
  induction lst with
  | nil => simp [semCheckTables]
  | cons t rest ih =>
    simp only [semCheckTables]
    cases hf : ctxT.find? (fun x => x.name == t) with
    | none =>
      rw [ih]
      constructor
      · intro h t' ht' ti hti
        rcases List.mem_cons.mp ht' with rfl | ht'
        · rw [hf] at hti
          exact absurd hti (by simp)
        · exact h t' ht' ti hti
      · intro h t' ht' ti hti
        exact h t' (List.mem_cons_of_mem t ht') ti hti
    | some ti =>
      dsimp only
      cases hinv : (invalidColsFor ti t cols).isEmpty with
      | true =>
        rw [if_pos rfl, ih]
        constructor
        · intro h t' ht' ti' hti'
          rcases List.mem_cons.mp ht' with rfl | ht'
          · rw [hf] at hti'
            cases hti'
            exact List.isEmpty_iff.mp hinv
          · exact h t' ht' ti' hti'
        · intro h t' ht' ti' hti'
          exact h t' (List.mem_cons_of_mem t ht') ti' hti'
      | false =>
        rw [if_neg (by simp)]
        constructor
        · intro h
          exact absurd h (by simp)
        · intro h
          exfalso
          have := h t (List.mem_cons_self t rest) ti hf
          rw [this] at hinv
          simp at hinv

theorem invalidColsFor_eq_nil_iff (ti : TableCtx) (t : String) (cols : List String)
    (hdot : ∀ c ∈ cols, strContainsChar c '.' = false) :
    invalidColsFor ti t cols = [] ↔ ∀ c ∈ cols, c ∈ ti.metadata.columns := by
  unfold invalidColsFor
  have hfil : cols.filter
      (fun c => strIsPrefixOf (t ++ ".") c || !(strContainsChar c '.')) = cols := by
    rw [List.filter_eq_self]
    intro c hc
    rw [hdot c hc]
    simp
  rw [hfil]
  have hmap : cols.map
      (fun c => if strContainsChar c '.' then (pySplitChar '.' c).getD 1 "" else c) =
      cols := by
    have := List.map_congr_left (l := cols)
      (f := fun c => if strContainsChar c '.' then (pySplitChar '.' c).getD 1 "" else c)
      (g := fun c => c) (by
        intro c hc
        dsimp only
        rw [hdot c hc]
        simp)
    rw [this, List.map_id']
  rw [hmap, List.filter_eq_nil_iff]
  constructor
  · intro h c hc
    have := h c ((mem_pyDedupFirst cols c).mpr hc)
    simp only [List.contains] at this
    exact List.elem_iff.mp (by simpa using this)
  · intro h c hc
    have hm := (mem_pyDedupFirst cols c).mp hc
    have he : List.elem c ti.metadata.columns = true := List.elem_iff.mpr (h c hm)
    simp [List.contains, he]
    exact h c hm

theorem mem_extract_relationships (tables : List TableCtx) (rel : Relationship)
    (h : rel ∈ extract_relationships tables) :
    rel.from_table ∈ tables.map (·.name) ∧ rel.to_table ∈ tables.map (·.name) := by
  simp only [extract_relationships, List.mem_flatten, List.mem_map] at h
  rcases h with ⟨l, ⟨ti, hti, rfl⟩, hrel⟩
  rcases List.mem_filterMap.mp hrel with ⟨fk, _hfk, heq⟩
  by_cases hc : ((tables.map (·.name)).contains fk.references.table) = true
  · rw [if_pos hc] at heq
    cases heq
    refine ⟨List.mem_map.mpr ⟨ti, hti, rfl⟩, ?_⟩
    exact List.elem_iff.mp hc
  · rw [if_neg hc] at heq
    cases heq

/-! ## Claims -/

/-- Every bare column reference turns into its plain name. -/
theorem colString_of_bare (c : ColumnRef) (h : c.table = none) :
    colString c = c.name := by
  simp [colString, h]

/-- The helper `build_context` only ever reports relationships between retained
tables. -/
theorem build_context_rel_endpoints (br : Option String)
    (results : List SearchResult) (parsed : ParsedQuery) (rel : Relationship)
    (h : rel ∈ (build_context br results parsed).relationships) :
    rel.from_table ∈ (build_context br results parsed).tables.map (·.name) ∧
    rel.to_table ∈ (build_context br results parsed).tables.map (·.name) := by
  unfold build_context at h ⊢
  dsimp only at h ⊢
  split_ifs at h with hlen
  · exact mem_extract_relationships _ rel h
  · cases h

/-- C1 (amended): when the initial SQL fails validation and every SQL the
correction loop produces also fails, `query_to_sql` returns
`is_valid = false`, but `correction_attempts` remains 0 (the source only
assigns the counter on a successful validation, here modelled by a
validator collaborator that rejects every SQL with a fixed message) and
`error` is the wrapper text "Failed after N correction attempts. Last
error: <last validation error>" rather than the bare error text. -/
theorem c1_exhaustion_amended (validate : String → Bool × String × Option String)
    (exec' : String → Bool × Option Rows × Option String)
    (correct : String → String → String) (query genSql : String)
    (maxAttempts : Nat) (errMsg : String)
    (H : ∀ s, validate s = (false, s, some errMsg)) :
    (query_to_sql validate exec' correct query genSql maxAttempts).1.is_valid = false ∧
    (query_to_sql validate exec' correct query genSql maxAttempts).1.correction_attempts = 0 ∧
    (query_to_sql validate exec' correct query genSql maxAttempts).1.error =
      some ("Failed after " ++ toString maxAttempts ++
        " correction attempts. Last error: " ++ errMsg) := by
  have hl := corrLoop_all_fail validate exec' correct
    { query := query, sql := some genSql, is_valid := false,
      execution_results := none, correction_attempts := 0, error := none,
      execution_error := none } errMsg H maxAttempts 1 genSql
  simp [query_to_sql, H, hl, pyStr]

/-- C1 counterexample: with `max_attempts = 2`, a validator rejecting every
SQL with message "boom" yields `correction_attempts = 0`, not 2, and an
`error` field different from the bare "boom". -/
theorem c1_counterexample :
    ¬((query_to_sql c1validate c1exec c1correct "q" "SELECT 1" 2).1.correction_attempts = 2) ∧
    ¬((query_to_sql c1validate c1exec c1correct "q" "SELECT 1" 2).1.error = some "boom") := by
  decide

/-- C1 witness: the amended statement at the concrete collaborators. -/
theorem c1_witness :
    (query_to_sql c1validate c1exec c1correct "q" "SELECT 1" 2).1.is_valid = false ∧
    (query_to_sql c1validate c1exec c1correct "q" "SELECT 1" 2).1.correction_attempts = 0 ∧
    (query_to_sql c1validate c1exec c1correct "q" "SELECT 1" 2).1.error =
      some ("Failed after " ++ toString 2 ++
        " correction attempts. Last error: " ++ "boom") :=
  c1_exhaustion_amended c1validate c1exec c1correct "q" "SELECT 1" 2 "boom"
    (fun _ => rfl)

/-- C2 (amended): when every referenced table is present in the context and
all column references are unqualified dot-free names, semantic validation
passes iff every bare column belongs to the column set of EVERY referenced
table — the intersection of the in-scope tables' column sets, not their
union. -/
theorem c2_bare_columns_amended (parse : String → ParseOutcome)
    (ctx : SchemaContext) (sql : String) (st : ParsedStmt)
    (stRest : List ParsedStmt) (hp : parse sql = .ok (st :: stRest))
    (htabs : ∀ t ∈ st.tables, t ∈ ctx.tables.map (·.name))
    (hbare : ∀ c ∈ st.columns, c.table = none)
    (hdot : ∀ c ∈ st.columns, strContainsChar c.name '.' = false) :
    (validate_semantics parse ctx sql).1 = true ↔
      ∀ t ∈ st.tables, ∀ ti, ctx.tables.find? (fun x => x.name == t) = some ti →
        ∀ c ∈ st.columns, c.name ∈ ti.metadata.columns := by
  have hcolmem : ∀ x, x ∈ pyDedupFirst (st.columns.map colString) ↔
      ∃ cc ∈ st.columns, cc.name = x := by
    intro x
    rw [mem_pyDedupFirst, List.mem_map]
    constructor
    · rintro ⟨cc, hcc, rfl⟩
      exact ⟨cc, hcc, (colString_of_bare cc (hbare cc hcc)).symm⟩
    · rintro ⟨cc, hcc, rfl⟩
      exact ⟨cc, hcc, colString_of_bare cc (hbare cc hcc)⟩
  have hdotlist : ∀ x ∈ pyDedupFirst (st.columns.map colString),
      strContainsChar x '.' = false := by
    intro x hx
    rcases (hcolmem x).mp hx with ⟨cc, hcc, rfl⟩
    exact hdot cc hcc
  have hinv : (pyDedupFirst st.tables).filter
      (fun t => !((ctx.tables.map (·.name)).contains t)) = [] := by
    rw [List.filter_eq_nil_iff]
    intro t ht
    have hmem := htabs t ((mem_pyDedupFirst _ t).mp ht)
    have he : List.elem t (ctx.tables.map (·.name)) = true := List.elem_iff.mpr hmem
    simp only [List.contains, he, Bool.not_true, Bool.false_eq_true,
      not_false_eq_true]
  unfold validate_semantics
  rw [hp]
  dsimp only
  rw [hinv]
  simp only [List.isEmpty_nil, Bool.not_true, Bool.false_eq_true, if_false]
  rw [semCheckTables_true_iff]
  constructor
  · intro h t ht ti hti c hc
    have hnil := h t ((mem_pyDedupFirst _ t).mpr ht) ti hti
    have hall := (invalidColsFor_eq_nil_iff ti t _ hdotlist).mp hnil
    exact hall c.name ((hcolmem c.name).mpr ⟨c, hc, rfl⟩)
  · intro h t ht ti hti
    refine (invalidColsFor_eq_nil_iff ti t _ hdotlist).mpr ?_
    intro x hx
    rcases (hcolmem x).mp hx with ⟨cc, hcc, rfl⟩
    exact h t ((mem_pyDedupFirst _ t).mp ht) ti hti cc hcc

/-- C2 counterexample: both referenced tables are present, the bare column
`a` belongs to the union of the in-scope tables' columns (it is a column of
`t1`), yet semantic validation rejects the statement, because the check
demands the bare column of every referenced table (`t2` lacks `a`). -/
theorem c2_counterexample :
    (∀ t ∈ c2stmt.tables, t ∈ c2ctx.tables.map (·.name)) ∧
    "a" ∈ (c2ctx.tables.map (·.metadata.columns)).flatten ∧
    (validate_semantics c2parse c2ctx c2sql).1 = false := by
  decide

/-- C2 witness: the amended characterisation applied to the concrete
two-table context decides the validation verdict. -/
theorem c2_witness : (validate_semantics c2parse c2ctx c2sql).1 = false := by
  have h := c2_bare_columns_amended c2parse c2ctx c2sql c2stmt []
    (by decide) (by decide) (by decide) (by decide)
  cases hb : (validate_semantics c2parse c2ctx c2sql).1 with
  | false => rfl
  | true =>
    exfalso
    have h2 := (h.mp hb) "t2" (by decide) ⟨"t2", "", c2meta2, 0⟩ (by decide)
      ⟨none, "a"⟩ (by decide)
    exact absurd h2 (by decide)

/-- C3 (amended): `validate_and_fix` attempts the auto-fix at most once per
call and only after a semantic failure, and an invalid outcome always
carries the original input SQL; but when the rewrite changed the SQL and
the rewritten SQL fails re-validation, the reported error is the
re-validation error of the rewritten SQL — the original pre-fix semantic
error is returned only when the rewrite left the SQL unchanged. -/
theorem c3_autofix_amended (parse : String → ParseOutcome)
    (engine : String → Except String Unit) (dialect : String)
    (ctx : SchemaContext) (sql : String) (e : String)
    (hsyn : validate_syntax_stage parse sql = (true, none))
    (hsem : validate_semantics parse ctx sql = (false, some e)) :
    (∀ p c s, autofix_attempts p c s ≤ 1) ∧
    autofix_attempts parse ctx sql = 1 ∧
    (apply_basic_fixes sql e = sql →
      validate_and_fix parse engine dialect ctx sql = (false, sql, some e)) ∧
    (∀ e1, apply_basic_fixes sql e ≠ sql →
      validate_syntax_stage parse (apply_basic_fixes sql e) = (false, some e1) →
      validate_and_fix parse engine dialect ctx sql = (false, sql, some e1)) ∧
    (∀ e2, apply_basic_fixes sql e ≠ sql →
      validate_syntax_stage parse (apply_basic_fixes sql e) = (true, none) →
      validate_semantics parse ctx (apply_basic_fixes sql e) = (false, some e2) →
      validate_and_fix parse engine dialect ctx sql = (false, sql, some e2)) := by
  refine ⟨?_, ?_, ?_, ?_, ?_⟩
  · intro p c s
    unfold autofix_attempts
    split_ifs <;> simp
  · simp [autofix_attempts, hsyn, hsem]
  · intro hfix
    simp [validate_and_fix, hsyn, hsem, pyStr, hfix]
  · intro e1 hfix hsynf
    simp [validate_and_fix, hsyn, hsem, pyStr, hfix, hsynf]
  · intro e2 hfix hsynf hsemf
    simp [validate_and_fix, hsyn, hsem, pyStr, hfix, hsynf, hsemf]

/-- C3 counterexample: for `c3sql` the pre-fix semantic error is
"Invalid table(s): Unknown column"; the auto-fix rewrites the SQL (also
inside a string literal), the rewritten SQL fails syntax re-validation, and
`validate_and_fix` returns that syntax error — not the original pre-fix
semantic error the claim promises. -/
theorem c3_counterexample :
    validate_semantics c3parse c3ctx c3sql = (false, some c3preErr) ∧
    validate_and_fix c3parse c3engine "mysql" c3ctx c3sql =
      (false, c3sql, some c3postErr) ∧
    c3postErr ≠ c3preErr := by
  decide

/-- C3 witness: the amended statement at the concrete fixture. -/
theorem c3_witness :
    autofix_attempts c3parse c3ctx c3sql = 1 ∧
    validate_and_fix c3parse c3engine "mysql" c3ctx c3sql =
      (false, c3sql, some c3postErr) :=
  ⟨(c3_autofix_amended c3parse c3engine "mysql" c3ctx c3sql c3preErr
      (by decide) (by decide)).2.1,
   (c3_autofix_amended c3parse c3engine "mysql" c3ctx c3sql c3preErr
      (by decide) (by decide)).2.2.2.1 c3postErr (by decide) (by decide)⟩

/-- C4: when the SQL passes validation but its execution fails,
`query_to_sql` records the execution error and returns with
`is_valid = true`, the `correction_attempts` reached at validation time
(0 for the initial SQL, the attempt number for a corrected SQL), and no
further generation call (the second component counts correction-generation
calls). -/
theorem c4_execution_failure_terminal
    (validate : String → Bool × String × Option String)
    (exec' : String → Bool × Option Rows × Option String)
    (correct : String → String → String) (query genSql : String)
    (maxAttempts : Nat) :
    (∀ f e m, validate genSql = (true, f, e) → exec' f = (false, none, some m) →
      query_to_sql validate exec' correct query genSql maxAttempts =
        (⟨query, some f, true, none, 0, none, some m⟩, 0)) ∧
    (∀ e0 f1 e1 m1 rem, maxAttempts = rem + 1 →
      validate genSql = (false, genSql, e0) →
      validate (correct genSql (pyStr e0)) = (true, f1, e1) →
      exec' f1 = (false, none, some m1) →
      query_to_sql validate exec' correct query genSql maxAttempts =
        (⟨query, some f1, true, none, 1, none, some m1⟩, 1)) := by
  constructor
  · intro f e m h1 h2
    simp [query_to_sql, h1, h2]
  · intro e0 f1 e1 m1 rem hmax h0 h1 h2
    subst hmax
    simp [query_to_sql, h0, corrLoop, h1, h2]

/-- C4 witness: the two cases at concrete collaborators (initial SQL passes
and execution fails; initial fails, the first corrected SQL passes and its
execution fails). -/
theorem c4_witness :
    query_to_sql c4validate c4exec c4correct "q" "SELECT 1" 3 =
      (⟨"q", some "SELECT 1", true, none, 0, none,
        some "Execution failed: timeout"⟩, 0) ∧
    query_to_sql c4validateB c4exec c4correct "q" "BAD" 3 =
      (⟨"q", some "SELECT 2", true, none, 1, none,
        some "Execution failed: timeout"⟩, 1) :=
  ⟨(c4_execution_failure_terminal c4validate c4exec c4correct "q" "SELECT 1" 3).1
      "SELECT 1" none "Execution failed: timeout" rfl rfl,
   (c4_execution_failure_terminal c4validateB c4exec c4correct "q" "BAD" 3).2
      (some "e0") "SELECT 2" none "Execution failed: timeout" 2 rfl
      (by decide) (by decide) rfl⟩

/-- C5: in context retrieval, a search result whose distance exceeds
`1 - score_threshold` never appears among the retained matches, and one at
exactly the boundary is retained (the comparison is inclusive). -/
theorem c5_score_boundary (search : String → List SearchResult) (θ : ℚ)
    (queries : List String) (r : SearchResult) :
    (1 - θ < r.distance → r ∉ allResults search θ queries) ∧
    (∀ q, q ∈ queries → r ∈ search q → r.distance = 1 - θ →
      r ∈ allResults search θ queries) := by
  constructor
  · intro hgt hmem
    rcases (mem_allResults search θ queries r).mp hmem with ⟨q, _hq, _hr, hd⟩
    exact absurd hd (not_le.mpr hgt)
  · intro q hq hr heq
    exact (mem_allResults search θ queries r).mpr ⟨q, hq, hr, le_of_eq heq⟩

/-- C5 witness: with threshold 1/2, the result at distance 1/2 (= 1 - 1/2)
is retained and the one at distance 3/4 is excluded. -/
theorem c5_witness :
    c5r1 ∈ allResults c5search (1/2) ["q"] ∧
    c5r2 ∉ allResults c5search (1/2) ["q"] :=
  ⟨(c5_score_boundary c5search (1/2) ["q"] c5r1).2 "q" (by simp)
      (by simp [c5search]) (by norm_num [c5r1]),
   (c5_score_boundary c5search (1/2) ["q"] c5r2).1 (by norm_num [c5r2])⟩

/-- C6: deduplication keeps no two entries with the same document id, is a
sublist of its input (first-seen order preserved), and the entry retained
for each id is the first occurrence in the merged input. -/
theorem c6_dedup_first_seen (rs : List SearchResult) :
    (((deduplicate_results rs).map (·.id)).Nodup) ∧
    ((deduplicate_results rs).Sublist rs) ∧
    (∀ s, (deduplicate_results rs).find? (fun r => r.id == s) =
      rs.find? (fun r => r.id == s)) := by
  refine ⟨dedupKeyGo_map_key_nodup _ _ _, dedupKeyGo_sublist _ _ _, ?_⟩
  intro s
  exact dedupKeyGo_find? (fun r => r.id) [] rs s rfl

/-- C7: every relationship of a retrieved schema context has both endpoints
among the names of that context's retained tables. -/
theorem c7_relationship_endpoints (search : String → List SearchResult)
    (business_rules : Option String) (tp : TimeProvider) (query : String)
    (score_threshold : ℚ) (use_hybrid_search : Bool) (rel : Relationship)
    (h : rel ∈ (retrieve_context search business_rules tp query
      score_threshold use_hybrid_search).relationships) :
    rel.from_table ∈ (retrieve_context search business_rules tp query
      score_threshold use_hybrid_search).tables.map (·.name) ∧
    rel.to_table ∈ (retrieve_context search business_rules tp query
      score_threshold use_hybrid_search).tables.map (·.name) :=
  build_context_rel_endpoints _ _ _ rel h

/-- C7 witness: retrieving over a store with `users` and `orders` (foreign
key `orders.user_id -> users.id`) produces the relationship with both
endpoints among the retained tables. -/
theorem c7_witness :
    c7rel.from_table ∈ (retrieve_context c7search none tp0 "q" 0
      true).tables.map (·.name) ∧
    c7rel.to_table ∈ (retrieve_context c7search none tp0 "q" 0
      true).tables.map (·.name) := by
  have hfil : filteredSearch c7search 0 "q" = [c7r1, c7r2] := by
    simp only [filteredSearch, c7search, if_pos rfl, List.filter]
    norm_num [c7r1, c7r2]
  have hall : allResults c7search 0 ["q", "q"] = [c7r1, c7r2, c7r1, c7r2] := by
    simp [allResults, hfil]
  have hctx : retrieve_context c7search none tp0 "q" 0 true =
      build_context none (deduplicate_results (allResults c7search 0 ["q", "q"]))
        (parse_query tp0 "q") := rfl
  refine c7_relationship_endpoints c7search none tp0 "q" 0 true c7rel ?_
  rw [hctx, hall]
  decide

/-- C8: intent classification agrees with the ordered rule table
(aggregation, extreme, average, ranking, trend, proportion; first keyword
hit in the lower-cased text wins, else `simple`), so a text hitting several
groups gets the highest-priority label. -/
theorem c8_intent_priority (query : String) :
    classify_intent query = intent_by_rules query := by
  unfold classify_intent intent_by_rules intent_rule_table
  cases h1 : (["统计", "计算", "多少", "几个"].any fun w => containsSub (pyLower query) w) <;>
  cases h2 : (["最高", "最大", "最低", "最小"].any fun w => containsSub (pyLower query) w) <;>
  cases h3 : (["平均", "均值"].any fun w => containsSub (pyLower query) w) <;>
  cases h4 : (["排名", "排行", "top"].any fun w => containsSub (pyLower query) w) <;>
  cases h5 : (["趋势", "变化", "增长"].any fun w => containsSub (pyLower query) w) <;>
  cases h6 : (["占比", "比例", "百分比"].any fun w => containsSub (pyLower query) w) <;>
  simp [List.find?, h1, h2, h3, h4, h5, h6]

/-- C9 (amended): the `entities` field is a plain list with one entry per
qualifying token occurrence — a qualifying token occurring n times in the
text occurs n times in `entities`; unlike metrics and dimensions it is not
deduplicated. -/
theorem c9_entities_amended (tp : TimeProvider) (q w : String) :
    List.count w (parse_query tp q).entities =
      if 2 < w.length ∧ w ∉ entityStoplist then List.count w (pyWords q)
      else 0 := by
  show List.count w (extract_entities q) = _
  unfold extract_entities
  by_cases hw : 2 < w.length ∧ w ∉ entityStoplist
  · rw [if_pos hw]
    apply List.count_filter
    simp [hw.1, hw.2, List.contains]
  · rw [if_neg hw]
    rw [List.count_eq_zero]
    intro hmem
    have hm := List.mem_filter.mp hmem
    apply hw
    have := hm.2
    simp only [Bool.and_eq_true, decide_eq_true_eq, Bool.not_eq_true] at this
    refine ⟨this.1, ?_⟩
    intro hsl
    have : entityStoplist.contains w = true := List.elem_iff.mpr hsl
    rw [this] at hm
    simp at hm

/-- C9 counterexample: the query "aaa aaa" yields the entities list
["aaa", "aaa"], which contains a duplicate — the field is not a set. -/
theorem c9_counterexample :
    (parse_query tp0 "aaa aaa").entities = ["aaa", "aaa"] ∧
    ¬ ((parse_query tp0 "aaa aaa").entities).Nodup := by
  decide

/-- C10: for any dialect other than mysql and postgresql, `dry_run` is
exactly `validate_syntax_stage` and its outcome does not depend on the database
engine collaborator at all (no statement is executed). -/
theorem c10_dry_run_generic (engine : String → Except String Unit)
    (dialect : String) (parse : String → ParseOutcome) (sql : String)
    (h1 : dialect ≠ "mysql") (h2 : dialect ≠ "postgresql") :
    dry_run engine dialect parse sql = validate_syntax_stage parse sql ∧
    ∀ engineB, dry_run engineB dialect parse sql =
      dry_run engine dialect parse sql := by
  constructor
  · simp [dry_run, h1, h2]
  · intro engineB
    simp [dry_run, h1, h2]

/-- C10 witness: the sqlite dialect at two different engine collaborators. -/
theorem c10_witness :
    dry_run c10engine "sqlite" c10parse "SELECT 1" =
      validate_syntax_stage c10parse "SELECT 1" ∧
    dry_run c10engineB "sqlite" c10parse "SELECT 1" =
      dry_run c10engine "sqlite" c10parse "SELECT 1" :=
  ⟨(c10_dry_run_generic c10engine "sqlite" c10parse "SELECT 1"
      (by decide) (by decide)).1,
   (c10_dry_run_generic c10engine "sqlite" c10parse "SELECT 1"
      (by decide) (by decide)).2 c10engineB⟩

end Text2SQL
